import Mathlib

/-!
# Verification of the doc_trans_pro real-time speech I/O pipeline

Shallow embedding of the audio codec, playback-sink and session-controller
code of the repository, together with proofs settling the spec's claims.

Conventions of the embedding:
* JS numbers appearing as audio samples are modelled as `ℚ` (every finite
  float is a rational, and all arithmetic performed by the code on them —
  multiplication by the power of two 32768, division by 32768 — is exact).
* Byte values are `Nat` constrained to `< 256` where it matters.
* Fallible operations (`atob`, `Int16Array` construction, `createBuffer`)
  return `Option`.
* The stateful session controller is modelled by explicit state passing
  over a `VoiceState` (the component refs) and a `World` (the handles the
  surrounding platform knows to be open), with release actions traced.
-/

/-! ## PCM encode: `createAudioBlob` (App.tsx)

The source stores `data[i] * 32768` into an `Int16Array`.  A JS store into
an `Int16Array` converts via `ToInt16`: truncate toward zero, reduce
modulo 2^16, reinterpret as signed. -/

/-- Truncation toward zero of a rational, as performed by JS
`ToIntegerOrInfinity` on a finite number. -/
def jsTrunc (q : ℚ) : Int :=
  if 0 ≤ q then ⌊q⌋ else ⌈q⌉

/-- JS `ToInt16`: wrap an integer into the signed 16-bit range
`[-32768, 32767]` by reduction modulo 2^16. -/
def toInt16 (n : Int) : Int :=
  let m := n % 65536
  if 32768 ≤ m then m - 65536 else m

/-- One element store of the `createAudioBlob` loop:
`int16[i] = data[i] * 32768` (no clamping in the source). -/
def int16Store (x : ℚ) : Int :=
  toInt16 (jsTrunc (x * 32768))

/-- The `Int16Array` produced by `createAudioBlob` from a float sample
block (the `encodeSamples` operation of the spec). -/
def createAudioBlobSamples (data : List ℚ) : List Int :=
  data.map int16Store

/-- Clamp a rational to `[lo, hi]`. -/
def clampRat (lo hi x : ℚ) : ℚ :=
  max lo (min hi x)

/-- Rounding to the nearest integer (half up), the `round` of the spec. -/
def jsRound (q : ℚ) : Int :=
  ⌊q + 1 / 2⌋

/-- Modelled from the spec (not from the source): the sample-encoding
function the spec's clamp law asserts, `round(clamp(x,-1,1)*32767)`
applied pointwise.  Kept for comparison with `createAudioBlobSamples`. -/
def encodeSamplesSpec (block : List ℚ) : List Int :=
  block.map (fun x => jsRound (clampRat (-1) 1 x * 32767))

/-! ## Transport codec: `encodeAudio` (App.tsx) and `decode`
(services/geminiService.ts)

`encodeAudio` turns each byte into the character of the same code and
calls `btoa`; `decode` calls `atob` and reads the codes back with
`charCodeAt`.  `btoa`/`atob` are the platform's base64 codec on latin-1
code units, modelled here at the byte level. -/

/-- The base64 alphabet used by `btoa`/`atob`. -/
def b64Alphabet : List Char :=
  "ABCDEFGHIJKLMNOPQRSTUVWXYZabcdefghijklmnopqrstuvwxyz0123456789+/".toList

/-- Character for a sextet value. -/
def b64Char (i : Nat) : Char :=
  b64Alphabet.getD i '?'

/-- Sextet value of a base64 character, `none` when the character is not
in the alphabet (in particular for `=`). -/
def b64Index (c : Char) : Option Nat :=
  b64Alphabet.indexOf? c

/-- `btoa` on the code-unit (= byte) sequence: groups of three bytes give
four characters; a trailing group of one or two bytes is padded with
`=`. -/
def btoaBytes : List Nat → List Char
  | [] => []
  | [b0] =>
      [b64Char (b0 / 4), b64Char (b0 % 4 * 16), '=', '=']
  | [b0, b1] =>
      [b64Char (b0 / 4), b64Char (b0 % 4 * 16 + b1 / 16),
       b64Char (b1 % 16 * 4), '=']
  | b0 :: b1 :: b2 :: rest =>
      b64Char (b0 / 4) :: b64Char (b0 % 4 * 16 + b1 / 16) ::
      b64Char (b1 % 16 * 4 + b2 / 64) :: b64Char (b2 % 64) ::
      btoaBytes rest

/-- `atob` composed with the `charCodeAt` read-back loop of `decode`:
parses four characters at a time, accepting `=` padding only at the end,
and returns the decoded byte values (which are exactly the character
codes of the binary string `atob` returns). -/
def atobBytes : List Char → Option (List Nat)
  | [] => some []
  | c0 :: c1 :: c2 :: c3 :: rest =>
      match b64Index c0, b64Index c1 with
      | some s0, some s1 =>
          if c2 = '=' then
            if c3 = '=' ∧ rest = [] then
              some [s0 * 4 + s1 / 16]
            else none
          else
            match b64Index c2 with
            | some s2 =>
                if c3 = '=' then
                  if rest = [] then
                    some [s0 * 4 + s1 / 16, s1 % 16 * 16 + s2 / 4]
                  else none
                else
                  match b64Index c3, atobBytes rest with
                  | some s3, some bs =>
                      some ((s0 * 4 + s1 / 16) :: (s1 % 16 * 16 + s2 / 4) ::
                            (s2 % 4 * 64 + s3) :: bs)
                  | _, _ => none
            | none => none
      | _, _ => none
  | _ => none

/-- `encodeAudio` (App.tsx): bytes → binary string → `btoa`. -/
def encodeAudio (bytes : List Nat) : String :=
  ⟨btoaBytes bytes⟩

/-- `decode` (services/geminiService.ts): `atob` then one byte per
character code. -/
def decode (base64 : String) : Option (List Nat) :=
  atobBytes base64.toList

/-- The little-endian byte pair of an `Int16Array` element, as laid out
in the array's buffer. -/
def int16ToBytes (n : Int) : List Nat :=
  [(n % 65536).toNat % 256, (n % 65536).toNat / 256]

/-- `createAudioBlob` (App.tsx) in full: encode the samples to PCM16,
serialize the `Int16Array`'s buffer little-endian, base64 it, and pair it
with the fixed mime type. -/
def createAudioBlob (data : List ℚ) : String × String :=
  (encodeAudio ((createAudioBlobSamples data).flatMap int16ToBytes),
   "audio/pcm;rate=16000")

/-! ## Playback decode: `decodeAudioData` (services/geminiService.ts)

The source builds `new Int16Array(data.buffer)` (throws `RangeError` when
the byte length is odd), computes `frameCount = dataInt16.length /
numChannels` (a JS real division), and calls `ctx.createBuffer(channels,
frameCount, rate)` (the Web IDL `unsigned long` conversion truncates the
length; `createBuffer` throws `NotSupportedError` when it is zero).  The
fill loop runs `i < frameCount`; stores past the channel-data length are
silent no-ops on a typed array, so the observable buffer holds exactly
`⌊frameCount⌋` frames per channel. -/

/-- Little-endian signed 16-bit read at element index `k` of the byte
buffer, as an `Int16Array` element access performs it. -/
def int16At (bytes : List Nat) (k : Nat) : Int :=
  let v := bytes.getD (2 * k) 0 + 256 * bytes.getD (2 * k + 1) 0
  if v < 32768 then (v : Int) else (v : Int) - 65536

/-- `decodeAudioData` (services/geminiService.ts): the observable result
of decoding `data` at a channel count — `none` models the thrown
exceptions, `some channels` the returned `AudioBuffer`'s channel data. -/
def decodeAudioData (data : List Nat) (numChannels : Nat) :
    Option (List (List ℚ)) :=
  if data.length % 2 ≠ 0 then none
  else
    let frameCount := data.length / 2 / numChannels
    if frameCount = 0 then none
    else
      some ((List.range numChannels).map (fun channel =>
        (List.range frameCount).map (fun i =>
          ((int16At data (i * numChannels + channel) : ℚ) / 32768))))

/-! ## Transcript assembly: the `onmessage` callback (App.tsx)

On a message carrying `serverContent.inputTranscription`, the source runs
`setSourceText(prev => (prev.trim() + " " + newText).trim())`; other
messages leave the text unchanged. -/

/-- JS `String.prototype.trim`: remove whitespace from both ends
(modelled over Lean's `Char.isWhitespace`, which agrees with JS on the
characters the pipeline produces). -/
def jsTrim (s : String) : String :=
  ⟨((s.data.dropWhile Char.isWhitespace).reverse.dropWhile
      Char.isWhitespace).reverse⟩

/-- One inbound live-session message, reduced to the field `onmessage`
reads: `serverContent?.inputTranscription?.text`. -/
def applyTranscriptionMessage (sourceText : String) (msg : Option String) :
    String :=
  match msg with
  | some newText => jsTrim (jsTrim sourceText ++ " " ++ newText)
  | none => sourceText

/-- The transcript after a sequence of inbound messages has been
delivered, in delivery order. -/
def processMessages (msgs : List (Option String)) (init : String) : String :=
  msgs.foldl applyTranscriptionMessage init

/-! ## Session controller: `startRecording` / `stopRecording` /
`toggleVoiceInput` (App.tsx)

`VoiceState` holds the component refs (`sessionRef`, `processorRef`,
`streamRef`, `audioContextRef`, `isRecording`); `World` what the platform
knows: the next fresh handle id and the handles currently open.  Release
actions are traced.  `startRecording` is the success path of the async
start sequence, linearized (getUserMedia, new AudioContext, live.connect,
then the processor created in `onopen`); it contains no already-recording
guard and never closes the handles it overwrites. -/

inductive ReleaseAction where
  | closeSession
  | disconnectProcessor
  | stopStreamTracks
  | closeContext
  deriving DecidableEq, Repr

structure VoiceState where
  sessionH : Option Nat
  processorH : Option Nat
  streamH : Option Nat
  ctxH : Option Nat
  isRecording : Bool
  deriving DecidableEq, Repr

structure World where
  nextId : Nat
  openStreams : List Nat
  openSessions : List Nat
  openContexts : List Nat
  deriving DecidableEq, Repr

/-- The component state with every ref null and recording off. -/
def releasedState : VoiceState :=
  ⟨none, none, none, none, false⟩

/-- `stopRecording` (App.tsx): four sequential if-blocks — close the
session (inside `try/catch`, so a throwing `close()` is swallowed;
`closeThrows` says whether it throws), disconnect the processor, stop the
stream's tracks, close the audio context — each nulling its ref, then
`setIsRecording(false)`. -/
def stopRecording (closeThrows : Bool) (w : World) (s : VoiceState) :
    World × VoiceState × List ReleaseAction :=
  let r1 :=
    match s.sessionH with
    | some k =>
        ((if closeThrows then w
          else { w with openSessions := w.openSessions.erase k }),
         { s with sessionH := none },
         [ReleaseAction.closeSession])
    | none => (w, s, ([] : List ReleaseAction))
  let r2 :=
    match r1.2.1.processorH with
    | some _ =>
        (r1.1, { r1.2.1 with processorH := none },
         r1.2.2 ++ [ReleaseAction.disconnectProcessor])
    | none => r1
  let r3 :=
    match r2.2.1.streamH with
    | some k =>
        ({ r2.1 with openStreams := r2.1.openStreams.erase k },
         { r2.2.1 with streamH := none },
         r2.2.2 ++ [ReleaseAction.stopStreamTracks])
    | none => r2
  match r3.2.1.ctxH with
  | some k =>
      ({ r3.1 with openContexts := r3.1.openContexts.erase k },
       { r3.2.1 with ctxH := none, isRecording := false },
       r3.2.2 ++ [ReleaseAction.closeContext])
  | none => (r3.1, { r3.2.1 with isRecording := false }, r3.2.2)

/-- `startRecording` (App.tsx), success path: `setIsRecording(true)`,
acquire the stream, the context, the session and (in `onopen`) the script
processor, overwriting the refs.  Nothing previously referenced is
closed. -/
def startRecording (w : World) (_s : VoiceState) : World × VoiceState :=
  let streamId := w.nextId
  let ctxId := w.nextId + 1
  let sessId := w.nextId + 2
  let procId := w.nextId + 3
  (⟨w.nextId + 4, streamId :: w.openStreams, sessId :: w.openSessions,
    ctxId :: w.openContexts⟩,
   ⟨some sessId, some procId, some streamId, some ctxId, true⟩)

/-- `toggleVoiceInput` (App.tsx): stop when recording, start
otherwise. -/
def toggleVoiceInput (closeThrows : Bool) (w : World) (s : VoiceState) :
    World × VoiceState :=
  if s.isRecording then
    let r := stopRecording closeThrows w s
    (r.1, r.2.1)
  else startRecording w s

/-! ## Playback sink: the two `speakText` variants

`speakText` of services/geminiService.ts (Web Audio TTS path) returns
early on empty text or a response without audio; otherwise it builds a
fresh `AudioContext` and starts a new buffer source — it never stops a
prior one.  The other variant (`window.speechSynthesis`) cancels all
pending speech before speaking. -/

structure PlayWorld where
  active : List Nat
  nextId : Nat
  deriving DecidableEq, Repr

/-- `speakText` (services/geminiService.ts, Web Audio TTS): `hasAudio`
models whether the synthesis response carried inline audio data.  On the
play path a fresh buffer source is scheduled alongside whatever is
already active. -/
def speakTextTTS (text : String) (hasAudio : Bool) (w : PlayWorld) :
    PlayWorld :=
  if text = "" then w
  else if hasAudio then ⟨w.active ++ [w.nextId], w.nextId + 1⟩
  else w

/-- `speakText` (speech-synthesis variant): empty text returns early;
otherwise `speechSynthesis.cancel()` clears the utterance queue and
`speak` enqueues the new utterance. -/
def speakTextSynth (text : String) (utterances : List String) :
    List String :=
  if text = "" then utterances else [text]

/-! ## Helper lemmas -/

theorem jsTrunc_intCast (m : Int) : jsTrunc (m : ℚ) = m := by
  simp only [jsTrunc]
  split
  · exact Int.floor_intCast m
  · exact Int.ceil_intCast m

theorem int16Store_intCast (n : Int) :
    int16Store (n : ℚ) = toInt16 (n * 32768) := by
  simp only [int16Store]
  rw [show ((n : ℚ) * 32768) = ((n * 32768 : Int) : ℚ) by push_cast; ring,
     jsTrunc_intCast]

theorem toInt16_of_bounds {n : Int} (h1 : -32768 ≤ n) (h2 : n ≤ 32767) :
    toInt16 n = n := by
  simp only [toInt16]
  split <;> omega

theorem b64Index_b64Char {s : Nat} (h : s < 64) :
    b64Index (b64Char s) = some s := by
  have key : ∀ t < 64, b64Index (b64Char t) = some t := by decide
  exact key s h

theorem b64Char_ne_pad {s : Nat} (h : s < 64) : b64Char s ≠ '=' := by
  have key : ∀ t < 64, b64Char t ≠ '=' := by decide
  exact key s h

/-- `atob ∘ btoa` is the identity on byte sequences, chunk by chunk. -/
theorem atob_btoa : ∀ (b : List Nat), (∀ x ∈ b, x < 256) →
    atobBytes (btoaBytes b) = some b
  | [], _ => rfl
  | [b0], h => by
      have h0 : b0 < 256 := h b0 (by simp)
      simp only [btoaBytes, atobBytes]
      rw [b64Index_b64Char (show b0 / 4 < 64 by omega),
          b64Index_b64Char (show b0 % 4 * 16 < 64 by omega)]
      simp only [if_pos rfl, and_self, ite_true, Option.some.injEq,
        List.cons.injEq, and_true]
      omega
  | [b0, b1], h => by
      have h0 : b0 < 256 := h b0 (by simp)
      have h1 : b1 < 256 := h b1 (by simp)
      have hne2 : b64Char (b1 % 16 * 4) ≠ '=' := b64Char_ne_pad (by omega)
      simp only [btoaBytes, atobBytes]
      rw [b64Index_b64Char (show b0 / 4 < 64 by omega),
          b64Index_b64Char (show b0 % 4 * 16 + b1 / 16 < 64 by omega),
          b64Index_b64Char (show b1 % 16 * 4 < 64 by omega)]
      simp only [hne2, if_false, ite_true, if_pos rfl, Option.some.injEq,
        List.cons.injEq, and_true, if_neg hne2]
      constructor <;> omega
  | b0 :: b1 :: b2 :: rest, h => by
      have h0 : b0 < 256 := h b0 (by simp)
      have h1 : b1 < 256 := h b1 (by simp)
      have h2 : b2 < 256 := h b2 (by simp)
      have ih := atob_btoa rest (fun x hx => h x (by simp [hx]))
      have hne2 : b64Char (b1 % 16 * 4 + b2 / 64) ≠ '=' :=
        b64Char_ne_pad (by omega)
      have hne3 : b64Char (b2 % 64) ≠ '=' := b64Char_ne_pad (by omega)
      simp only [btoaBytes, atobBytes]
      rw [b64Index_b64Char (show b0 / 4 < 64 by omega),
          b64Index_b64Char (show b0 % 4 * 16 + b1 / 16 < 64 by omega),
          b64Index_b64Char (show b1 % 16 * 4 + b2 / 64 < 64 by omega),
          b64Index_b64Char (show b2 % 64 < 64 by omega)]
      simp only [if_neg hne2, if_neg hne3, ih, Option.some.injEq,
        List.cons.injEq, and_true]
      refine ⟨by omega, by omega, by omega⟩

/-! ## C1 — sample clamp law -/

/-- C1, counterexample: at the input sample `x = 2.0` the code's encoder
stores `0` (the store `2.0 * 32768 = 65536` wraps modulo 2^16), while
the spec's `round(clamp(x,-1,1)*32767)` prescribes `32767`; the claimed
equality fails. -/
theorem claim1_counterexample :
    createAudioBlobSamples [(2 : ℚ)] = [0] ∧
    encodeSamplesSpec [(2 : ℚ)] = [32767] ∧
    createAudioBlobSamples [(2 : ℚ)] ≠ encodeSamplesSpec [(2 : ℚ)] := by
  have hc : createAudioBlobSamples [(2 : ℚ)] = [0] := by
    rw [show (2 : ℚ) = ((2 : Int) : ℚ) by norm_num]
    simp only [createAudioBlobSamples, List.map_cons, List.map_nil,
      int16Store_intCast]
    decide
  have hclamp : clampRat (-1) 1 (2 : ℚ) = 1 := by
    simp only [clampRat]
    norm_num
  have hs : encodeSamplesSpec [(2 : ℚ)] = [32767] := by
    simp only [encodeSamplesSpec, List.map_cons, List.map_nil, hclamp,
      jsRound, List.cons.injEq, and_true]
    rw [Int.floor_eq_iff]
    norm_num
  exact ⟨hc, hs, by rw [hc, hs]; decide⟩

/-- C1, amended: `createAudioBlob` does not clamp.  It multiplies by
32768 (not 32767) and converts through the JS `Int16Array` store, which
truncates toward zero and wraps modulo 2^16: for in-range samples
`-1 ≤ x < 1` the stored value is `trunc(x·32768)`, while out-of-range
samples wrap — `2.0 ↦ 0`, `-5.0 ↦ -32768`, `0.0 ↦ 0`, and already
`1.0 ↦ -32768`. -/
theorem claim1_wrap_not_clamp :
    (∀ x : ℚ, -1 ≤ x → x < 1 →
      createAudioBlobSamples [x] = [jsTrunc (x * 32768)]) ∧
    createAudioBlobSamples [(2 : ℚ)] = [0] ∧
    createAudioBlobSamples [(-5 : ℚ)] = [-32768] ∧
    createAudioBlobSamples [(0 : ℚ)] = [0] ∧
    createAudioBlobSamples [(1 : ℚ)] = [-32768] := by
  refine ⟨?_, ?_, ?_, ?_, ?_⟩
  · intro x hl hr
    simp only [createAudioBlobSamples, List.map_cons, List.map_nil,
      int16Store]
    congr 1
    have hq1 : (-32768 : ℚ) ≤ x * 32768 := by nlinarith
    have hq2 : x * 32768 < 32768 := by nlinarith
    apply toInt16_of_bounds
    · simp only [jsTrunc]
      split
      · have : (0 : Int) ≤ ⌊x * 32768⌋ := Int.floor_nonneg.mpr (by assumption)
        omega
      · have : (-32768 : Int) ≤ ⌈x * 32768⌉ := by
          have hcl := Int.le_ceil (x * 32768)
          have : ((-32768 : Int) : ℚ) ≤ (⌈x * 32768⌉ : ℚ) := by
            push_cast
            linarith
          exact_mod_cast this
        omega
    · simp only [jsTrunc]
      split
      · have : ⌊x * 32768⌋ < (32768 : Int) := by
          rw [Int.floor_lt]
          exact_mod_cast hq2
        omega
      · rename_i hneg
        push_neg at hneg
        have : ⌈x * 32768⌉ ≤ (0 : Int) := Int.ceil_le.mpr (by exact_mod_cast hneg.le)
        omega
  all_goals
    first
    | (rw [show (2 : ℚ) = ((2 : Int) : ℚ) by norm_num]
       simp only [createAudioBlobSamples, List.map_cons, List.map_nil,
         int16Store_intCast]
       decide)
    | (rw [show (-5 : ℚ) = ((-5 : Int) : ℚ) by norm_num]
       simp only [createAudioBlobSamples, List.map_cons, List.map_nil,
         int16Store_intCast]
       decide)
    | (rw [show (0 : ℚ) = ((0 : Int) : ℚ) by norm_num]
       simp only [createAudioBlobSamples, List.map_cons, List.map_nil,
         int16Store_intCast]
       decide)
    | (rw [show (1 : ℚ) = ((1 : Int) : ℚ) by norm_num]
       simp only [createAudioBlobSamples, List.map_cons, List.map_nil,
         int16Store_intCast]
       decide)

/-- C1, witness: the in-range sample `1/2` encodes to `16384`. -/
theorem claim1_witness : createAudioBlobSamples [(1 : ℚ) / 2] = [16384] := by
  have h := claim1_wrap_not_clamp.1 (1 / 2) (by norm_num) (by norm_num)
  rw [h, show ((1 : ℚ) / 2 * 32768) = ((16384 : Int) : ℚ) by norm_num,
     jsTrunc_intCast]

/-! ## C2 — transport round-trip law -/

/-- C2: for every byte sequence `b` (empty included), decoding the
base64 transport encoding gives back `b` byte-identically:
`decode (encodeAudio b) = some b`. -/
theorem claim2_roundtrip (b : List Nat) (hb : ∀ x ∈ b, x < 256) :
    decode (encodeAudio b) = some b :=
  atob_btoa b hb

/-- C2, witness: a concrete four-byte sequence (one full chunk plus a
padded one) round-trips. -/
theorem claim2_witness :
    (∀ x ∈ ([0, 127, 255, 7] : List Nat), x < 256) ∧
    decode (encodeAudio [0, 127, 255, 7]) = some [0, 127, 255, 7] :=
  ⟨by decide, claim2_roundtrip [0, 127, 255, 7] (by decide)⟩

/-! ## C3 — decode shape invariant -/

/-- C3, counterexample: 6 bytes at 2 channels has `len % (2*ch) = 2 ≠ 0`,
so the claim demands failure, but `decodeAudioData` succeeds (the
fractional `frameCount = 1.5` is truncated by `createBuffer` to one
frame). -/
theorem claim3_counterexample :
    (6 : Nat) % (2 * 2) ≠ 0 ∧
    (decodeAudioData [0, 0, 0, 0, 0, 0] 2).isSome = true := by
  decide

/-- C3, amended: `decodeAudioData bytes ch` fails iff the byte length is
odd (the `Int16Array` view throws) or there is less than one full frame,
`len/2 < ch` (the truncated `createBuffer` length is zero) — not iff
`len % (2*ch) ≠ 0`.  In particular 3 bytes at one channel fails, 4 bytes
at one channel yields a 2-frame buffer, and the empty input fails as
well. -/
theorem claim3_amended :
    (∀ (bytes : List Nat) (ch : Nat), 1 ≤ ch →
      (decodeAudioData bytes ch = none ↔
        bytes.length % 2 ≠ 0 ∨ bytes.length / 2 < ch)) ∧
    decodeAudioData [0, 0, 0] 1 = none ∧
    (decodeAudioData [0, 0, 0, 0] 1).map (List.map List.length) = some [2] ∧
    decodeAudioData [] 1 = none := by
  refine ⟨?_, by decide, by decide, by decide⟩
  intro bytes ch hch
  simp only [decodeAudioData]
  split_ifs with h1 h2
  · simp [h1]
  · rw [Nat.div_eq_zero_iff (by omega)] at h2
    simp [h1, h2]
  · rw [Nat.div_eq_zero_iff (by omega)] at h2
    simp [h1]
    omega

/-- C3, witness: the failure characterization instantiated at 3 bytes,
one channel. -/
theorem claim3_witness :
    decodeAudioData [0, 0, 0] 1 = none ↔
      ([0, 0, 0] : List Nat).length % 2 ≠ 0 ∨
      ([0, 0, 0] : List Nat).length / 2 < 1 :=
  claim3_amended.1 [0, 0, 0] 1 (by decide)

/-! ## C4 — transcript ordering -/

/-- C4, counterexample: delivering the deltas `["Hel", "lo ", " world"]`
into an empty transcript does not produce `"Hello world"` — the handler
joins each delta with an extra space and trims, inserting and dropping
text. -/
theorem claim4_counterexample :
    processMessages [some "Hel", some "lo ", some " world"] "" ≠
      "Hello world" := by
  decide

/-- C4, amended: transcript deltas are applied in delivery order, but by
the trim-and-space-join `acc ↦ trim(trim(acc) + " " + delta)` rather than
plain concatenation; on the example deltas the transcript becomes
`"Hel lo  world"`. -/
theorem claim4_amended :
    (∀ (deltas : List String) (init : String),
      processMessages (deltas.map some) init =
        deltas.foldl (fun acc d => jsTrim (jsTrim acc ++ " " ++ d)) init) ∧
    processMessages [some "Hel", some "lo ", some " world"] "" =
      "Hel lo  world" := by
  constructor
  · intro deltas init
    simp [processMessages, List.foldl_map, applyTranscriptionMessage]
  · decide

/-! ## C5 — playback replace semantics -/

/-- C5, counterexample: after `play(A)` then `play(B)` through the Web
Audio TTS `speakText`, both buffer sources are still scheduled (`[0, 1]`),
not only B's (`[1]`): nothing cancels the first playback. -/
theorem claim5_counterexample :
    (speakTextTTS "B" true (speakTextTTS "A" true ⟨[], 0⟩)).active =
      [0, 1] ∧
    (speakTextTTS "B" true (speakTextTTS "A" true ⟨[], 0⟩)).active ≠
      [1] := by
  decide

/-- C5, amended: the Web Audio TTS `speakText` performs no cancellation —
each call schedules an additional buffer source, so consecutive plays
leave both A's and B's buffers active (mixing, not replacement).  Only
the separate speech-synthesis `speakText` variant cancels pending speech
before speaking, leaving exactly B. -/
theorem claim5_amended :
    (∀ (a b : String) (w : PlayWorld), a ≠ "" → b ≠ "" →
      (speakTextTTS b true (speakTextTTS a true w)).active =
        w.active ++ [w.nextId, w.nextId + 1]) ∧
    (∀ (a b : String) (q : List String), b ≠ "" →
      speakTextSynth b (speakTextSynth a q) = [b]) := by
  constructor
  · intro a b w ha hb
    simp [speakTextTTS, ha, hb]
  · intro a b q hb
    simp [speakTextSynth, hb]

/-- C5, witness: both branches of the amended statement at concrete
inputs. -/
theorem claim5_witness :
    (speakTextTTS "B" true (speakTextTTS "A" true ⟨[5], 7⟩)).active =
      [5, 7, 8] ∧
    speakTextSynth "B" (speakTextSynth "A" []) = ["B"] := by
  constructor
  · have h := claim5_amended.1 "A" "B" ⟨[5], 7⟩ (by decide) (by decide)
    simpa using h
  · exact claim5_amended.2 "A" "B" [] (by decide)

/-! ## C6 — idempotent stop -/

/-- Every `stopRecording` leaves the controller fully released. -/
theorem stopRecording_state (f : Bool) (w : World) (s : VoiceState) :
    (stopRecording f w s).2.1 = releasedState := by
  rcases s with ⟨so, po, sto, co, rec⟩
  cases so <;> cases po <;> cases sto <;> cases co <;>
    simp [stopRecording, releasedState]

/-- C6: stopping twice equals stopping once — the second call finds every
ref already null, changes nothing, and performs no release action (so no
duplicate release and nothing to throw); this holds from any state and
whether or not the session's `close()` throws on either call. -/
theorem claim6_idempotent_stop (f1 f2 : Bool) (w : World) (s : VoiceState) :
    stopRecording f2 (stopRecording f1 w s).1 (stopRecording f1 w s).2.1 =
      ((stopRecording f1 w s).1, (stopRecording f1 w s).2.1,
       ([] : List ReleaseAction)) := by
  rw [stopRecording_state f1 w s]
  simp [stopRecording, releasedState]

/-! ## C7 — no concurrent sessions on start -/

/-- C7, counterexample: calling `startRecording` again while recording is
not a no-op — the controller state changes and a second device stream is
opened (two open streams afterwards). -/
theorem claim7_counterexample :
    ((startRecording (startRecording ⟨0, [], [], []⟩ releasedState).1
        (startRecording ⟨0, [], [], []⟩ releasedState).2).2 ≠
      (startRecording ⟨0, [], [], []⟩ releasedState).2) ∧
    (startRecording ⟨0, [], [], []⟩ releasedState).2.isRecording = true ∧
    (startRecording (startRecording ⟨0, [], [], []⟩ releasedState).1
        (startRecording ⟨0, [], [], []⟩ releasedState).2).1.openStreams.length =
      2 := by
  decide

/-- C7, amended: `startRecording` has no already-recording guard — invoked
while recording it opens a fresh device stream (one more open stream, the
new ref points at the fresh handle) and leaves any previously opened
stream open but unreferenced (leaked); the UI-level `toggleVoiceInput`
never starts a second session because, when recording, it instead stops
the current one (also not a no-op). -/
theorem claim7_amended (f : Bool) (w : World) (s : VoiceState)
    (h : s.isRecording = true) :
    (startRecording w s).1.openStreams.length = w.openStreams.length + 1 ∧
    (startRecording w s).2.streamH = some w.nextId ∧
    (∀ k, s.streamH = some k → k ∈ w.openStreams →
      k ∈ (startRecording w s).1.openStreams) ∧
    toggleVoiceInput f w s =
      ((stopRecording f w s).1, (stopRecording f w s).2.1) := by
  refine ⟨by simp [startRecording], by simp [startRecording], ?_, ?_⟩
  · intro k hk hmem
    simp [startRecording]
    exact Or.inr hmem
  · simp [toggleVoiceInput, h]

/-- C7, witness: the amended statement instantiated at a recording
state. -/
theorem claim7_witness :
    (startRecording ⟨9, [4], [6], [5]⟩
        ⟨some 6, some 7, some 4, some 5, true⟩).1.openStreams.length = 2 := by
  have h := (claim7_amended false ⟨9, [4], [6], [5]⟩
    ⟨some 6, some 7, some 4, some 5, true⟩ rfl).1
  simpa using h

/-! ## C8 — teardown convergence -/

/-- C8: from any state, `stopRecording` reaches the fully-released state;
its observable result is the same whether or not the session's `close()`
throws (the one fallible release, and it is wrapped in `try/catch`); and
every resource held at entry gets its release attempted. -/
theorem claim8_full_release (f : Bool) (w : World) (s : VoiceState) :
    (stopRecording f w s).2.1 = releasedState ∧
    (stopRecording true w s).2 = (stopRecording false w s).2 ∧
    (s.sessionH.isSome →
      ReleaseAction.closeSession ∈ (stopRecording f w s).2.2) ∧
    (s.processorH.isSome →
      ReleaseAction.disconnectProcessor ∈ (stopRecording f w s).2.2) ∧
    (s.streamH.isSome →
      ReleaseAction.stopStreamTracks ∈ (stopRecording f w s).2.2) ∧
    (s.ctxH.isSome →
      ReleaseAction.closeContext ∈ (stopRecording f w s).2.2) := by
  rcases s with ⟨so, po, sto, co, rec⟩
  cases so <;> cases po <;> cases sto <;> cases co <;>
    simp [stopRecording, releasedState]

/-- C8, witness: at a fully-populated state with a throwing session
close, the state still ends fully released and both the first and last
releases are attempted. -/
theorem claim8_witness :
    (stopRecording true ⟨4, [0], [3], [1]⟩
        ⟨some 3, some 2, some 0, some 1, true⟩).2.1 = releasedState ∧
    ReleaseAction.closeSession ∈
      (stopRecording true ⟨4, [0], [3], [1]⟩
        ⟨some 3, some 2, some 0, some 1, true⟩).2.2 ∧
    ReleaseAction.closeContext ∈
      (stopRecording true ⟨4, [0], [3], [1]⟩
        ⟨some 3, some 2, some 0, some 1, true⟩).2.2 :=
  ⟨(claim8_full_release true ⟨4, [0], [3], [1]⟩
      ⟨some 3, some 2, some 0, some 1, true⟩).1,
   (claim8_full_release true ⟨4, [0], [3], [1]⟩
      ⟨some 3, some 2, some 0, some 1, true⟩).2.2.1 (by decide),
   (claim8_full_release true ⟨4, [0], [3], [1]⟩
      ⟨some 3, some 2, some 0, some 1, true⟩).2.2.2.2.2 (by decide)⟩

/-! ## C9 — teardown order -/

/-- C9, counterexample: from a fully-open state the release trace starts
with the remote session, not the capture source — the capture source
(stream tracks) is NOT released before the remote connection as the
claim's order requires. -/
theorem claim9_counterexample :
    (stopRecording false ⟨4, [0], [3], [1]⟩
        ⟨some 3, some 2, some 0, some 1, true⟩).2.2 =
      [ReleaseAction.closeSession, ReleaseAction.disconnectProcessor,
       ReleaseAction.stopStreamTracks, ReleaseAction.closeContext] ∧
    ¬ ((stopRecording false ⟨4, [0], [3], [1]⟩
          ⟨some 3, some 2, some 0, some 1, true⟩).2.2.indexOf
            ReleaseAction.stopStreamTracks <
        (stopRecording false ⟨4, [0], [3], [1]⟩
          ⟨some 3, some 2, some 0, some 1, true⟩).2.2.indexOf
            ReleaseAction.closeSession) := by
  decide

/-- C9, amended: on stop of a fully-open session the owned resources are
released each exactly once, but in the order: remote connection first,
then the Outbound Framer (script processor), then the Capture Source
(stream tracks), then the audio context — the reverse of the claimed
capture-first order. -/
theorem claim9_amended (f : Bool) (w : World) (s : VoiceState)
    (h1 : s.sessionH.isSome) (h2 : s.processorH.isSome)
    (h3 : s.streamH.isSome) (h4 : s.ctxH.isSome) :
    (stopRecording f w s).2.2 =
      [ReleaseAction.closeSession, ReleaseAction.disconnectProcessor,
       ReleaseAction.stopStreamTracks, ReleaseAction.closeContext] ∧
    (∀ a : ReleaseAction, (stopRecording f w s).2.2.count a = 1) := by
  rcases s with ⟨so, po, sto, co, rec⟩
  cases so <;> cases po <;> cases sto <;> cases co <;> simp_all [stopRecording]
  intro a
  cases a <;> decide

/-- C9, witness: the amended statement instantiated at a fully-open
state with a throwing session close. -/
theorem claim9_witness :
    (stopRecording true ⟨4, [0], [3], [1]⟩
        ⟨some 3, some 2, some 0, some 1, true⟩).2.2 =
      [ReleaseAction.closeSession, ReleaseAction.disconnectProcessor,
       ReleaseAction.stopStreamTracks, ReleaseAction.closeContext] :=
  (claim9_amended true ⟨4, [0], [3], [1]⟩
    ⟨some 3, some 2, some 0, some 1, true⟩
    (by decide) (by decide) (by decide) (by decide)).1

/-! ## C10 — playback buffer shape -/

/-- C10, counterexample: the empty byte sequence has length a multiple of
`2 * channels`, yet decoding produces no buffer at all (`createBuffer`
rejects a zero length), contradicting the claimed shape invariant for
every such sequence. -/
theorem claim10_counterexample :
    (0 : Nat) % (2 * 1) = 0 ∧ decodeAudioData [] 1 = none := by
  decide

/-- C10, amended: for NONEMPTY byte sequences whose length is a multiple
of `2 * channels`, decoding yields a buffer of `channels` sample lists of
equal length `len/2/channels` with
`channelData[c][i] = int16At(bytes, i*channels + c) / 32768`; the empty
sequence instead fails. -/
theorem claim10_amended :
    (∀ (bytes : List Nat) (ch : Nat), 1 ≤ ch →
      bytes.length % (2 * ch) = 0 → 0 < bytes.length →
      ∃ buf, decodeAudioData bytes ch = some buf ∧
        buf.length = ch ∧
        (∀ cd ∈ buf, cd.length = bytes.length / 2 / ch) ∧
        (∀ c i, c < ch → i < bytes.length / 2 / ch →
          (buf.getD c []).getD i 0 =
            (int16At bytes (i * ch + c) : ℚ) / 32768)) ∧
    decodeAudioData [] 1 = none := by
  refine ⟨?_, by decide⟩
  intro bytes ch hch hmod hpos
  obtain ⟨q, hq⟩ := Nat.dvd_of_mod_eq_zero hmod
  have hq2 : bytes.length = 2 * (ch * q) := by rw [hq, Nat.mul_assoc]
  have h2 : bytes.length % 2 = 0 := by
    rw [hq2]
    exact Nat.mul_mod_right 2 (ch * q)
  have hdiv : bytes.length / 2 = ch * q := by
    rw [hq2]
    exact Nat.mul_div_cancel_left _ (by norm_num)
  have hL : bytes.length / 2 / ch = q := by
    rw [hdiv]
    exact Nat.mul_div_cancel_left _ (by omega)
  have hqpos : 0 < q := by
    rcases Nat.eq_zero_or_pos q with h | h
    · subst h
      omega
    · exact h
  refine ⟨(List.range ch).map (fun channel =>
    (List.range (bytes.length / 2 / ch)).map (fun i =>
      ((int16At bytes (i * ch + channel) : ℚ) / 32768))), ?_, ?_, ?_, ?_⟩
  · simp only [decodeAudioData]
    rw [if_neg (by simp [h2]), if_neg (by rw [hL]; omega)]
  · simp
  · intro cd hcd
    simp only [List.mem_map] at hcd
    obtain ⟨c, _, rfl⟩ := hcd
    simp
  · intro c i hc hi
    have houter : ((List.range ch).map (fun channel =>
        (List.range (bytes.length / 2 / ch)).map (fun j =>
          ((int16At bytes (j * ch + channel) : ℚ) / 32768)))).getD c [] =
        (List.range (bytes.length / 2 / ch)).map (fun j =>
          ((int16At bytes (j * ch + c) : ℚ) / 32768)) := by
      rw [List.getD_eq_getElem _ _ (by simpa using hc)]
      simp
    rw [houter, List.getD_eq_getElem _ _ (by simpa using hi)]
    simp

/-- C10, witness: the shape invariant instantiated at the four-byte
sequence `[1, 0, 0, 128]`, one channel. -/
theorem claim10_witness :
    ∃ buf, decodeAudioData [1, 0, 0, 128] 1 = some buf ∧
      buf.length = 1 ∧
      (∀ cd ∈ buf, cd.length = ([1, 0, 0, 128] : List Nat).length / 2 / 1) ∧
      (∀ c i, c < 1 → i < ([1, 0, 0, 128] : List Nat).length / 2 / 1 →
        (buf.getD c []).getD i 0 =
          (int16At [1, 0, 0, 128] (i * 1 + c) : ℚ) / 32768) :=
  claim10_amended.1 [1, 0, 0, 128] 1 (by decide) (by decide) (by decide)
